import Mathlib

/-!
Shallow embedding of `pleiades/current_sets.py`: the current filament set
abstraction (`CurrentFilamentSet` base behaviour and its three concrete
shapes `ArbitraryPoints`, `RectangularCoil`, `MagnetRing`).

Conventions of the embedding:

* Scalars are exact rationals (`ℚ`); numpy float arithmetic is modelled
  exactly, except where a claim is explicitly about IEEE non-finite results
  (see `ieeeDiv`).
* Points in the (R, Z) plane are pairs `Pt := ℚ × ℚ`; numpy `Nx2` arrays are
  `List Pt`.
* The Python code computes `c, s = np.cos(angle), np.sin(angle)` from an angle
  in degrees converted to radians and then applies the rotation matrix
  `[[c, -s], [s, c]]` on row vectors.  Since real cosine/sine are not
  computable, every operation that rotates takes the precomputed pair
  `(c, s)` of cosine/sine values as explicit arguments; theorems that need
  `(c, s)` to really be a cosine/sine pair assume `c^2 + s^2 = 1`, which the
  true values satisfy.  Stored orientation angles (`angle`, `mu_hat`) are kept
  in degrees as in the source.
* Python exceptions are modelled by `Except PyError`; a pure state-updating
  method that cannot raise is a total function on the state structure.
* Each class's instance state is a structure; a Python property setter is a
  function `State → value → State`.
* The staleness flag: `ArbitraryPoints.translate`/`rotate` set
  `self._uptodate = False` directly in the source.  The decorator
  `cv.flag_greens_on_set` (module `pleiades.checkvalue`, not under `src/`) is
  modelled from the spec: every decorated setter must, as a side effect, mark
  the instance's Green's-function data stale, i.e. set the `_uptodate` flag to
  `false`.  In the embedding every decorated setter updates its fields and
  sets `_uptodate := false`.
* `FieldsOperator` (module `pleiades.fields`, not under `src/`) is external to
  the core; the only trace it leaves in the state is the `_uptodate` flag,
  whose value right after construction is left abstract (constructors take it
  as the parameter `u0`).
-/

namespace Pleiades

/-- A point in the (R, Z) plane. -/
abbrev Pt : Type := ℚ × ℚ

/-- `np.isclose(a, b)` with numpy's default tolerances
`rtol = 1e-5`, `atol = 1e-8`: `|a - b| ≤ atol + rtol * |b|`. -/
def npIsClose (a b : ℚ) : Bool :=
  |a - b| ≤ 1 / 100000000 + (1 / 100000) * |b|

/-- Modelled from the spec: `cv._ATOL` from the `pleiades.checkvalue` utility
module (not under `src/`), the "fixed absolute tolerance" used with zero
relative tolerance.  Its numeric value is not given by the source in `src/`;
no claim below depends on the particular (positive) value chosen here. -/
def ATOL : ℚ := 1 / 1000000000000

/-- `np.isclose(a, b, rtol=0., atol=cv._ATOL)`: `|a - b| ≤ ATOL`. -/
def npIsCloseAtol (a b : ℚ) : Bool :=
  |a - b| ≤ ATOL

/-- `np.linspace(a, b, n)`: `n` evenly spaced values from `a` to `b`
inclusive.  For `n = 1` numpy returns `[a]`; for `n = 0` the empty array. -/
def linspace (a b : ℚ) (n : ℕ) : List ℚ :=
  if n = 1 then [a]
  else (List.range n).map (fun i : ℕ => a + (i : ℚ) * (b - a) / ((n - 1 : ℕ) : ℚ))

/-- Rotation of a single point about `pivot` by the matrix `[[c, -s], [s, c]]`
acting on the row vector `p - pivot` (the `(pts - pivot) @ rotation + pivot`
pattern used throughout the source), with `(c, s)` the cosine/sine pair. -/
def rotatePt (p : Pt) (c s : ℚ) (pivot : Pt) : Pt :=
  ((p.1 - pivot.1) * c + (p.2 - pivot.2) * s + pivot.1,
   -(p.1 - pivot.1) * s + (p.2 - pivot.2) * c + pivot.2)

/-- Modelled from the spec: `pleiades.transforms.rotate` (not under `src/`),
the pure transform utility rotating a set of 2-D points about `pivot` by the
standard 2-D rotation matrix with cosine/sine `(c, s)` of the angle; the
matrix convention is the one the source inlines in `ArbitraryPoints.rotate`,
`RectangularCoil.rotate` and `MagnetRing.rotate`. -/
def rotate (pts : List Pt) (c s : ℚ) (pivot : Pt) : List Pt :=
  pts.map (fun p => rotatePt p c s pivot)

/-- Python exceptions that the embedded operations can raise. -/
inductive PyError : Type where
  | notImplementedError : PyError
  | typeError : PyError
deriving DecidableEq

/-- `matplotlib.path.Path` segment codes used by `_codes`. -/
inductive PathCode : Type where
  | moveto : PathCode
  | lineto : PathCode
  | closepoly : PathCode
deriving DecidableEq

/-- A `matplotlib.patches.PathPatch`: the closed boundary polygon plus the
styling keyword arguments it was constructed with. -/
structure PathPatch : Type where
  verts : List Pt
  codes : List PathCode
  kw : List (String × String)
deriving DecidableEq

/-- The `_codes` class attribute shared by `RectangularCoil` and
`MagnetRing`. -/
def filamentCodes : List PathCode :=
  [.moveto, .lineto, .lineto, .lineto, .closepoly]

/-- `CurrentFilamentSet.simplify`: computes the weighted centroid and the
total current, then unconditionally raises `NotImplementedError`.  It is
expressed over the base-class data it reads (`rz_pts`, `total_current`). -/
def simplify (rz_pts : List Pt) (total_current : ℚ) : Except PyError (Pt × ℚ) :=
  let r0 := (rz_pts.map Prod.fst).sum / (rz_pts.length : ℚ)
  let z0 := (rz_pts.map Prod.snd).sum / (rz_pts.length : ℚ)
  let current := total_current
  let _ := ((r0, z0), current)
  Except.error .notImplementedError

/-- `CurrentFilamentSet.clone`: unconditionally raises
`NotImplementedError`, for any concrete filament-set state. -/
def clone {α : Type} (_s : α) : Except PyError α :=
  Except.error .notImplementedError

/-! ## ArbitraryPoints -/

/-- Instance state of `ArbitraryPoints`: the stored point array `_rz_pts`,
the bookkeeping angle `_angle`, and the base-class state (`_current`,
`_weights`, `patch_kw`, the staleness flag `_uptodate`). -/
structure ArbitraryPoints : Type where
  rz_pts : List Pt
  angle : ℚ
  current : ℚ
  weights : List ℚ
  patch_kw : Option (List (String × String))
  uptodate : Bool

namespace ArbitraryPoints

/-- `ArbitraryPoints.npts`: the number of stored points. -/
def npts (s : ArbitraryPoints) : ℕ := s.rz_pts.length

/-- `ArbitraryPoints.__init__`: stores the point array, zeroes `_angle`, then
runs `CurrentFilamentSet.__init__` (weights default to all ones of length
`npts`).  `u0` is the staleness flag's post-construction value (set by the
external `FieldsOperator` initialisation, not part of this core). -/
def init (rz_pts : List Pt) (current : ℚ) (weights : Option (List ℚ))
    (patch_kw : Option (List (String × String))) (u0 : Bool) : ArbitraryPoints :=
  { rz_pts := rz_pts
    angle := 0
    current := current
    weights := match weights with
      | none => List.replicate rz_pts.length 1
      | some w => w
    patch_kw := patch_kw
    uptodate := u0 }

/-- `current` setter: plain assignment, not decorated with
`flag_greens_on_set`. -/
def set_current (s : ArbitraryPoints) (current : ℚ) : ArbitraryPoints :=
  { s with current := current }

/-- `weights` setter, decorated with `flag_greens_on_set`. -/
def set_weights (s : ArbitraryPoints) (weights : List ℚ) : ArbitraryPoints :=
  { s with weights := weights, uptodate := false }

/-- `total_current` getter: `current * sum(weights)`. -/
def total_current (s : ArbitraryPoints) : ℚ := s.current * s.weights.sum

/-- `total_current` setter: re-derives `current` as
`total_current / sum(weights)` through the (undecorated) `current` setter. -/
def set_total_current (s : ArbitraryPoints) (tc : ℚ) : ArbitraryPoints :=
  s.set_current (tc / s.weights.sum)

/-- `ArbitraryPoints.translate`: adds the displacement to every stored point
and marks the Green's data stale. -/
def translate (s : ArbitraryPoints) (v : Pt) : ArbitraryPoints :=
  { s with rz_pts := s.rz_pts.map (fun p => (p.1 + v.1, p.2 + v.2))
           uptodate := false }

/-- `ArbitraryPoints.rotate`: accumulates the angle, rotates the stored
points about `pivot` by the rotation matrix with cosine/sine `(c, sn)` of the
increment `a`, and marks the Green's data stale. -/
def rotate (s : ArbitraryPoints) (a c sn : ℚ) (pivot : Pt) : ArbitraryPoints :=
  { s with angle := s.angle + a
           rz_pts := Pleiades.rotate s.rz_pts c sn pivot
           uptodate := false }

/-- `ArbitraryPoints.patch` is `None`. -/
def patch (_s : ArbitraryPoints) : Option PathPatch := none

end ArbitraryPoints

/-! ## RectangularCoil -/

/-- Instance state of `RectangularCoil`: centroid `(_r0, _z0)`, grid counts
`(_nr, _nz)`, spacings `(_dr, _dz)`, orientation `_angle` (degrees), plus the
base-class state. -/
structure RectangularCoil : Type where
  r0 : ℚ
  z0 : ℚ
  nr : ℕ
  nz : ℕ
  dr : ℚ
  dz : ℚ
  angle : ℚ
  current : ℚ
  weights : List ℚ
  patch_kw : Option (List (String × String))
  uptodate : Bool

namespace RectangularCoil

/-- `RectangularCoil.npts = nr * nz`. -/
def npts (s : RectangularCoil) : ℕ := s.nr * s.nz

/-- `RectangularCoil.__init__`: stores the shape parameters, then runs
`CurrentFilamentSet.__init__` (weights default to all ones of length
`npts = nr*nz`).  `u0` as in `ArbitraryPoints.init`. -/
def init (r0 z0 : ℚ) (nr nz : ℕ) (dr dz angle current : ℚ)
    (weights : Option (List ℚ)) (patch_kw : Option (List (String × String)))
    (u0 : Bool) : RectangularCoil :=
  { r0 := r0, z0 := z0, nr := nr, nz := nz, dr := dr, dz := dz
    angle := angle
    current := current
    weights := match weights with
      | none => List.replicate (nr * nz) 1
      | some w => w
    patch_kw := patch_kw
    uptodate := u0 }

/-- `centroid` getter: `np.array([r0, z0])`. -/
def centroid (s : RectangularCoil) : Pt := (s.r0, s.z0)

/-- `current` setter: plain assignment, not decorated. -/
def set_current (s : RectangularCoil) (current : ℚ) : RectangularCoil :=
  { s with current := current }

/-- `weights` setter, decorated with `flag_greens_on_set`. -/
def set_weights (s : RectangularCoil) (weights : List ℚ) : RectangularCoil :=
  { s with weights := weights, uptodate := false }

/-- `total_current` getter: `current * sum(weights)`. -/
def total_current (s : RectangularCoil) : ℚ := s.current * s.weights.sum

/-- `total_current` setter: re-derives `current` through the (undecorated)
`current` setter. -/
def set_total_current (s : RectangularCoil) (tc : ℚ) : RectangularCoil :=
  s.set_current (tc / s.weights.sum)

/-- `r0` setter, decorated with `flag_greens_on_set`. -/
def set_r0 (s : RectangularCoil) (r0 : ℚ) : RectangularCoil :=
  { s with r0 := r0, uptodate := false }

/-- `z0` setter, decorated with `flag_greens_on_set`. -/
def set_z0 (s : RectangularCoil) (z0 : ℚ) : RectangularCoil :=
  { s with z0 := z0, uptodate := false }

/-- `centroid` setter, decorated with `flag_greens_on_set`. -/
def set_centroid (s : RectangularCoil) (c : Pt) : RectangularCoil :=
  { s with r0 := c.1, z0 := c.2, uptodate := false }

/-- `nr` setter, decorated with `flag_greens_on_set`. -/
def set_nr (s : RectangularCoil) (nr : ℕ) : RectangularCoil :=
  { s with nr := nr, uptodate := false }

/-- `nz` setter, decorated with `flag_greens_on_set`. -/
def set_nz (s : RectangularCoil) (nz : ℕ) : RectangularCoil :=
  { s with nz := nz, uptodate := false }

/-- `dr` setter, decorated with `flag_greens_on_set`. -/
def set_dr (s : RectangularCoil) (dr : ℚ) : RectangularCoil :=
  { s with dr := dr, uptodate := false }

/-- `dz` setter, decorated with `flag_greens_on_set`. -/
def set_dz (s : RectangularCoil) (dz : ℚ) : RectangularCoil :=
  { s with dz := dz, uptodate := false }

/-- `angle` setter, decorated with `flag_greens_on_set`. -/
def set_angle (s : RectangularCoil) (angle : ℚ) : RectangularCoil :=
  { s with angle := angle, uptodate := false }

/-- `RectangularCoil.rz_pts`: `nr` linspaced R-values crossed with `nz`
linspaced Z-values, Z fastest-varying; rotated about the centroid when
`angle` is not `np.isclose` to 0.  `(c, sn)` is the cosine/sine pair of the
stored `angle` (in degrees converted to radians), supplied by the caller. -/
def rz_pts (s : RectangularCoil) (c sn : ℚ) : List Pt :=
  let rl := s.r0 - s.dr * ((s.nr : ℚ) - 1) / 2
  let ru := s.r0 + s.dr * ((s.nr : ℚ) - 1) / 2
  let zl := s.z0 - s.dz * ((s.nz : ℚ) - 1) / 2
  let zu := s.z0 + s.dz * ((s.nz : ℚ) - 1) / 2
  let r := linspace rl ru s.nr
  let z := linspace zl zu s.nz
  let pts := r.flatMap (fun ri => z.map (fun zi => (ri, zi)))
  if npIsClose s.angle 0 then pts
  else Pleiades.rotate pts c sn (s.r0, s.z0)

/-- `RectangularCoil.area = nr*dr*nz*dz`. -/
def area (s : RectangularCoil) : ℚ := (s.nr : ℚ) * s.dr * (s.nz : ℚ) * s.dz

/-- `RectangularCoil.current_density = total_current / area`. -/
def current_density (s : RectangularCoil) : ℚ := s.total_current / s.area

/-- `RectangularCoil._verts`: the 4 grid-corner filaments (flat indices
`0, nz-1, nr*nz-1, (nr-1)*nz`, closing with index 0), each offset outward by
half a filament spacing; the offsets are rotated about the origin by `angle`
when `angle` is not `np.isclose` to 0. -/
def verts (s : RectangularCoil) (c sn : ℚ) : List Pt :=
  let pts := s.rz_pts c sn
  let corners := [pts.getD 0 (0, 0), pts.getD (s.nz - 1) (0, 0),
                  pts.getD (s.nr * s.nz - 1) (0, 0),
                  pts.getD ((s.nr - 1) * s.nz) (0, 0), pts.getD 0 (0, 0)]
  let hdr := s.dr / 2
  let hdz := s.dz / 2
  let dverts : List Pt :=
    [(-hdr, -hdz), (-hdr, hdz), (hdr, hdz), (hdr, -hdz), (-hdr, -hdz)]
  let dverts := if npIsClose s.angle 0 then dverts
                else Pleiades.rotate dverts c sn (0, 0)
  corners.zipWith (fun p d => (p.1 + d.1, p.2 + d.2)) dverts

/-- `RectangularCoil.patch`: `PathPatch(Path(self._verts, self._codes))` —
`patch_kw` is not consulted at all. -/
def patch (s : RectangularCoil) (c sn : ℚ) : Except PyError PathPatch :=
  Except.ok { verts := s.verts c sn, codes := filamentCodes, kw := [] }

/-- `RectangularCoil.translate`: `self.centroid += vector`, i.e. the
`centroid` setter applied to the shifted centroid. -/
def translate (s : RectangularCoil) (v : Pt) : RectangularCoil :=
  s.set_centroid (s.r0 + v.1, s.z0 + v.2)

/-- `RectangularCoil.rotate`: `self.angle += angle` (through the `angle`
setter) then `self.centroid = (centroid - pivot) @ rotation + pivot` (through
the `centroid` setter), with `(c, sn)` the cosine/sine pair of the increment
`a` in degrees converted to radians. -/
def rotate (s : RectangularCoil) (a c sn : ℚ) (pivot : Pt) : RectangularCoil :=
  let s1 := s.set_angle (s.angle + a)
  s1.set_centroid (rotatePt s1.centroid c sn pivot)

end RectangularCoil

/-! ## MagnetRing -/

/-- Instance state of `MagnetRing`: centroid `(_r0, _z0)`, `_width`,
`_height`, moment angle `_mu_hat` (degrees), plus the base-class state. -/
structure MagnetRing : Type where
  r0 : ℚ
  z0 : ℚ
  width : ℚ
  height : ℚ
  mu_hat : ℚ
  current : ℚ
  weights : List ℚ
  patch_kw : Option (List (String × String))
  uptodate : Bool

namespace MagnetRing

/-- `MagnetRing.npts = len(self._weights)`. -/
def npts (s : MagnetRing) : ℕ := s.weights.length

/-- `MagnetRing.__init__`: stores the shape parameters through their setters,
pops `weights` from the keyword arguments and defaults it to
`np.ones(16)` with the first 8 entries set to `-1`, then runs
`CurrentFilamentSet.__init__`.  `u0` as in `ArbitraryPoints.init`. -/
def init (r0 z0 width height mu_hat current : ℚ)
    (weights : Option (List ℚ)) (patch_kw : Option (List (String × String)))
    (u0 : Bool) : MagnetRing :=
  { r0 := r0, z0 := z0, width := width, height := height, mu_hat := mu_hat
    current := current
    weights := match weights with
      | none => List.replicate 8 (-1) ++ List.replicate 8 1
      | some w => w
    patch_kw := patch_kw
    uptodate := u0 }

/-- `centroid` getter: `np.array([r0, z0])`. -/
def centroid (s : MagnetRing) : Pt := (s.r0, s.z0)

/-- `current` setter: plain assignment, not decorated. -/
def set_current (s : MagnetRing) (current : ℚ) : MagnetRing :=
  { s with current := current }

/-- `weights` setter, decorated with `flag_greens_on_set`. -/
def set_weights (s : MagnetRing) (weights : List ℚ) : MagnetRing :=
  { s with weights := weights, uptodate := false }

/-- `total_current` getter: `current * sum(weights)`. -/
def total_current (s : MagnetRing) : ℚ := s.current * s.weights.sum

/-- `total_current` setter: re-derives `current` through the (undecorated)
`current` setter. -/
def set_total_current (s : MagnetRing) (tc : ℚ) : MagnetRing :=
  s.set_current (tc / s.weights.sum)

/-- `r0` setter, decorated with `flag_greens_on_set`. -/
def set_r0 (s : MagnetRing) (r0 : ℚ) : MagnetRing :=
  { s with r0 := r0, uptodate := false }

/-- `z0` setter, decorated with `flag_greens_on_set`. -/
def set_z0 (s : MagnetRing) (z0 : ℚ) : MagnetRing :=
  { s with z0 := z0, uptodate := false }

/-- `centroid` setter, decorated with `flag_greens_on_set`. -/
def set_centroid (s : MagnetRing) (c : Pt) : MagnetRing :=
  { s with r0 := c.1, z0 := c.2, uptodate := false }

/-- `width` setter, decorated with `flag_greens_on_set`. -/
def set_width (s : MagnetRing) (width : ℚ) : MagnetRing :=
  { s with width := width, uptodate := false }

/-- `height` setter, decorated with `flag_greens_on_set`. -/
def set_height (s : MagnetRing) (height : ℚ) : MagnetRing :=
  { s with height := height, uptodate := false }

/-- `mu_hat` setter, decorated with `flag_greens_on_set`. -/
def set_mu_hat (s : MagnetRing) (mu_hat : ℚ) : MagnetRing :=
  { s with mu_hat := mu_hat, uptodate := false }

/-- `MagnetRing.rz_pts`: two sheets of `npts//2` filaments at
`R = r0 ∓ width/2`, sharing the `npts//2` linspaced Z offsets spanning
`[-height/2, height/2]` added to `z0`; rotated about the centroid when
`mu_hat` is not within `ATOL` of 0 (`rtol=0`).  `(c, sn)` is the cosine/sine
pair of the stored `mu_hat`. -/
def rz_pts (s : MagnetRing) (c sn : ℚ) : List Pt :=
  let hnpts := s.npts / 2
  let hw := s.width / 2
  let hh := s.height / 2
  let zspace := linspace (-hh) hh hnpts
  let pts := zspace.map (fun z => (s.r0 - hw, s.z0 + z)) ++
             zspace.map (fun z => (s.r0 + hw, s.z0 + z))
  if npIsCloseAtol s.mu_hat 0 then pts
  else Pleiades.rotate pts c sn (s.r0, s.z0)

/-- `MagnetRing._verts`: the 4 filaments at flat indices
`0, npts//2 - 1, npts - 1, npts//2` (closing with index 0), with no offset
correction. -/
def verts (s : MagnetRing) (c sn : ℚ) : List Pt :=
  let pts := s.rz_pts c sn
  [pts.getD 0 (0, 0), pts.getD (s.npts / 2 - 1) (0, 0),
   pts.getD (s.npts - 1) (0, 0), pts.getD (s.npts / 2) (0, 0),
   pts.getD 0 (0, 0)]

/-- `MagnetRing.patch`:
`PathPatch(Path(self._verts, self._codes), **self.patch_kw)`.  When
`patch_kw` is `None` (its default), unpacking `**None` raises `TypeError`
(argument after ** must be a mapping). -/
def patch (s : MagnetRing) (c sn : ℚ) : Except PyError PathPatch :=
  match s.patch_kw with
  | none => Except.error .typeError
  | some kw => Except.ok { verts := s.verts c sn, codes := filamentCodes, kw := kw }

/-- `MagnetRing.translate`: `self.centroid += vector` through the `centroid`
setter. -/
def translate (s : MagnetRing) (v : Pt) : MagnetRing :=
  s.set_centroid (s.r0 + v.1, s.z0 + v.2)

/-- `MagnetRing.rotate`: `self.mu_hat += angle` (through the `mu_hat` setter)
then the centroid is rotated about `pivot` through the `centroid` setter,
with `(c, sn)` the cosine/sine pair of the increment `a`. -/
def rotate (s : MagnetRing) (a c sn : ℚ) (pivot : Pt) : MagnetRing :=
  let s1 := s.set_mu_hat (s.mu_hat + a)
  s1.set_centroid (rotatePt s1.centroid c sn pivot)

end MagnetRing

/-! ## Auxiliary definitions used to state the claims -/

/-- The filament grid exactly as the spec words it: `nr` evenly spaced
R-values spanning `[r0 - dr*(nr-1)/2, r0 + dr*(nr-1)/2]` (so starting at the
lower end with spacing `dr`), crossed with the analogous Z-values, enumerated
R-major with Z fastest-varying. -/
def rectGridSpec (r0 z0 : ℚ) (nr nz : ℕ) (dr dz : ℚ) : List Pt :=
  (List.range nr).flatMap (fun i : ℕ => (List.range nz).map (fun j : ℕ =>
    (r0 - dr * ((nr : ℚ) - 1) / 2 + (i : ℚ) * dr,
     z0 - dz * ((nz : ℚ) - 1) / 2 + (j : ℚ) * dz)))

/-- The centred, unrotated `MagnetRing` filament configuration: two sheets of
`hnpts` filaments at `R = ∓width/2` sharing `hnpts` linspaced Z offsets
spanning `[-height/2, height/2]`. -/
def magnetGrid0 (width height : ℚ) (hnpts : ℕ) : List Pt :=
  (linspace (-(height / 2)) (height / 2) hnpts).map (fun z => (-(width / 2), z)) ++
  (linspace (-(height / 2)) (height / 2) hnpts).map (fun z => (width / 2, z))

/-- Squared Euclidean distance between two points of the (R, Z) plane. -/
def sqDist (p q : Pt) : ℚ := (p.1 - q.1) ^ 2 + (p.2 - q.2) ^ 2

/-- The full matrix of pairwise squared Euclidean distances between the
filaments of a point list (equality of these matrices is equality of all
pairwise Euclidean distances). -/
def pairwiseSq (pts : List Pt) : List (List ℚ) :=
  pts.map (fun p => pts.map (fun q => sqDist p q))

/-- One geometric mutation call: `translate(v)`, or `rotate(a, pivot)` with
`(c, s)` the cosine/sine pair of the rotation increment `a`. -/
inductive MotionOp : Type where
  | translate (v : Pt) : MotionOp
  | rotate (a c s : ℚ) (pivot : Pt) : MotionOp

/-- Validity of a motion op: a rotation's `(c, s)` really is a cosine/sine
pair. -/
def MotionOp.valid : MotionOp → Prop
  | .translate _ => True
  | .rotate _ c s _ => c ^ 2 + s ^ 2 = 1

instance : DecidablePred MotionOp.valid := fun o =>
  match o with
  | .translate _ => inferInstanceAs (Decidable True)
  | .rotate _ c s _ => inferInstanceAs (Decidable (c ^ 2 + s ^ 2 = 1))

/-- Run one motion op on an `ArbitraryPoints`. -/
def ArbitraryPoints.applyOp (s : ArbitraryPoints) : MotionOp → ArbitraryPoints
  | .translate v => s.translate v
  | .rotate a c sn p => s.rotate a c sn p

/-- Run a finite sequence of motion ops on an `ArbitraryPoints`. -/
def ArbitraryPoints.applyOps (s : ArbitraryPoints) : List MotionOp → ArbitraryPoints
  | [] => s
  | op :: ops => (s.applyOp op).applyOps ops

/-- Run one motion op on a `RectangularCoil`. -/
def RectangularCoil.applyOp (s : RectangularCoil) : MotionOp → RectangularCoil
  | .translate v => s.translate v
  | .rotate a c sn p => s.rotate a c sn p

/-- Run a finite sequence of motion ops on a `RectangularCoil`. -/
def RectangularCoil.applyOps (s : RectangularCoil) : List MotionOp → RectangularCoil
  | [] => s
  | op :: ops => (s.applyOp op).applyOps ops

/-- Run one motion op on a `MagnetRing`. -/
def MagnetRing.applyOp (s : MagnetRing) : MotionOp → MagnetRing
  | .translate v => s.translate v
  | .rotate a c sn p => s.rotate a c sn p

/-- Run a finite sequence of motion ops on a `MagnetRing`. -/
def MagnetRing.applyOps (s : MagnetRing) : List MotionOp → MagnetRing
  | [] => s
  | op :: ops => (s.applyOp op).applyOps ops

/-- IEEE-754 division of finite operands, abstracted to finiteness of the
result: `some q` is the finite quotient (exact, since overflow plays no role
here) obtained for a nonzero divisor, `none` the non-finite value (`±inf` for
a nonzero dividend, `NaN` for `0/0`) that IEEE division by zero produces. -/
def ieeeDiv (x y : ℚ) : Option ℚ :=
  if y = 0 then none else some (x / y)

/-- The value assigned to `current` by the `total_current` setter
(`self.current = total_current / np.sum(self.weights)`), at the IEEE level of
`ieeeDiv`: `none` when the result is non-finite. -/
def set_total_current_ieee (weights : List ℚ) (tc : ℚ) : Option ℚ :=
  ieeeDiv tc weights.sum

/-! ## Theorems -/

/-- C1: assigning to any geometry- or weight-affecting attribute (`weights`;
`r0`, `z0`, `centroid`, `nr`, `nz`, `dr`, `dz`, `angle` on `RectangularCoil`;
`r0`, `z0`, `centroid`, `width`, `height`, `mu_hat` on `MagnetRing`) or
calling `translate`/`rotate` marks the Green's-function staleness flag, while
assigning to `current` alone leaves the flag unchanged and changes no state
other than the stored current. -/
theorem claim_C1_staleness :
    (∀ (s : ArbitraryPoints) (w : List ℚ), (s.set_weights w).uptodate = false) ∧
    (∀ (s : RectangularCoil) (w : List ℚ), (s.set_weights w).uptodate = false) ∧
    (∀ (s : MagnetRing) (w : List ℚ), (s.set_weights w).uptodate = false) ∧
    (∀ (s : RectangularCoil) (v : ℚ), (s.set_r0 v).uptodate = false) ∧
    (∀ (s : RectangularCoil) (v : ℚ), (s.set_z0 v).uptodate = false) ∧
    (∀ (s : RectangularCoil) (p : Pt), (s.set_centroid p).uptodate = false) ∧
    (∀ (s : RectangularCoil) (n : ℕ), (s.set_nr n).uptodate = false) ∧
    (∀ (s : RectangularCoil) (n : ℕ), (s.set_nz n).uptodate = false) ∧
    (∀ (s : RectangularCoil) (v : ℚ), (s.set_dr v).uptodate = false) ∧
    (∀ (s : RectangularCoil) (v : ℚ), (s.set_dz v).uptodate = false) ∧
    (∀ (s : RectangularCoil) (v : ℚ), (s.set_angle v).uptodate = false) ∧
    (∀ (s : MagnetRing) (v : ℚ), (s.set_r0 v).uptodate = false) ∧
    (∀ (s : MagnetRing) (v : ℚ), (s.set_z0 v).uptodate = false) ∧
    (∀ (s : MagnetRing) (p : Pt), (s.set_centroid p).uptodate = false) ∧
    (∀ (s : MagnetRing) (v : ℚ), (s.set_width v).uptodate = false) ∧
    (∀ (s : MagnetRing) (v : ℚ), (s.set_height v).uptodate = false) ∧
    (∀ (s : MagnetRing) (v : ℚ), (s.set_mu_hat v).uptodate = false) ∧
    (∀ (s : ArbitraryPoints) (v : Pt), (s.translate v).uptodate = false) ∧
    (∀ (s : ArbitraryPoints) (a c sn : ℚ) (p : Pt),
      (s.rotate a c sn p).uptodate = false) ∧
    (∀ (s : RectangularCoil) (v : Pt), (s.translate v).uptodate = false) ∧
    (∀ (s : RectangularCoil) (a c sn : ℚ) (p : Pt),
      (s.rotate a c sn p).uptodate = false) ∧
    (∀ (s : MagnetRing) (v : Pt), (s.translate v).uptodate = false) ∧
    (∀ (s : MagnetRing) (a c sn : ℚ) (p : Pt),
      (s.rotate a c sn p).uptodate = false) ∧
    (∀ (s : ArbitraryPoints) (i : ℚ), s.set_current i = { s with current := i }) ∧
    (∀ (s : RectangularCoil) (i : ℚ), s.set_current i = { s with current := i }) ∧
    (∀ (s : MagnetRing) (i : ℚ), s.set_current i = { s with current := i }) := by
  refine ⟨?_, ?_, ?_, ?_, ?_, ?_, ?_, ?_, ?_, ?_, ?_, ?_, ?_, ?_, ?_, ?_, ?_,
    ?_, ?_, ?_, ?_, ?_, ?_, ?_, ?_, ?_⟩ <;> intros <;> rfl

/-- C3 counterexample: `MagnetRing.npts` is `len(self._weights)`, so a
`MagnetRing` constructed with explicit weights of length 3 has `npts = 3`,
not 16: the claim's "every MagnetRing has npts = 16" is false. -/
theorem claim_C3_counterexample :
    (MagnetRing.init 1 0 (1/50) (2/25) 0 1 (some [1, 1, 1]) none true).npts ≠ 16 := by
  decide

/-- C3 (amended): every `MagnetRing` constructed without explicit weights has
`npts = 16`, weights `-1` for the first 8 filaments and `+1` for the last 8,
`sum(weights) = 0`, and `total_current = 0` for any value of `current`. -/
theorem claim_C3_magnet_defaults :
    ∀ (r0 z0 width height mu_hat current : ℚ)
      (pkw : Option (List (String × String))) (u0 : Bool),
      (MagnetRing.init r0 z0 width height mu_hat current none pkw u0).npts = 16 ∧
      (MagnetRing.init r0 z0 width height mu_hat current none pkw u0).weights =
        List.replicate 8 (-1) ++ List.replicate 8 1 ∧
      (MagnetRing.init r0 z0 width height mu_hat current none pkw u0).weights.sum = 0 ∧
      (MagnetRing.init r0 z0 width height mu_hat current none pkw u0).total_current = 0 := by
  intro r0 z0 width height mu_hat current pkw u0
  have hsum : (List.replicate 8 (-1 : ℚ) ++ List.replicate 8 1).sum = 0 := by
    simp [List.sum_replicate]
  have hs : (MagnetRing.init r0 z0 width height mu_hat current none pkw u0).weights.sum = 0 :=
    hsum
  refine ⟨rfl, rfl, hs, ?_⟩
  show current * (MagnetRing.init r0 z0 width height mu_hat current none pkw u0).weights.sum = 0
  rw [hs, mul_zero]

/-- C4 counterexample: a `RectangularCoil` built with `nr = nz = 1` and
default weights has one weight; after assigning `nr := 2` through its setter
(a mutation), `npts = 2` but `len(weights) = 1`, so the invariant does not
hold after every mutation. -/
theorem claim_C4_counterexample :
    ((RectangularCoil.init 1 0 1 1 (1/10) (1/10) 0 1 none none true).set_nr 2).weights.length ≠
      ((RectangularCoil.init 1 0 1 1 (1/10) (1/10) 0 1 none none true).set_nr 2).npts := by
  decide

/-- C4 (amended): `len(weights) = npts` holds after construction whenever no
explicit weights are supplied, and `translate`, `rotate`, and the `current` /
`total_current` setters change neither `weights` nor `npts` (so they preserve
the invariant); for `MagnetRing` the equality holds in every state since
`npts` is derived from `weights`.  It is not preserved by assigning `nr`/`nz`
on a `RectangularCoil` or weights of a different length. -/
theorem claim_C4_weights_length :
    (∀ (pts : List Pt) (cur : ℚ) (pkw : Option (List (String × String))) (u0 : Bool),
      (ArbitraryPoints.init pts cur none pkw u0).weights.length =
        (ArbitraryPoints.init pts cur none pkw u0).npts) ∧
    (∀ (r0 z0 : ℚ) (nr nz : ℕ) (dr dz angle cur : ℚ)
      (pkw : Option (List (String × String))) (u0 : Bool),
      (RectangularCoil.init r0 z0 nr nz dr dz angle cur none pkw u0).weights.length =
        (RectangularCoil.init r0 z0 nr nz dr dz angle cur none pkw u0).npts) ∧
    (∀ (s : MagnetRing), s.weights.length = s.npts) ∧
    (∀ (s : ArbitraryPoints) (v : Pt),
      (s.translate v).weights = s.weights ∧ (s.translate v).npts = s.npts) ∧
    (∀ (s : ArbitraryPoints) (a c sn : ℚ) (p : Pt),
      (s.rotate a c sn p).weights = s.weights ∧ (s.rotate a c sn p).npts = s.npts) ∧
    (∀ (s : RectangularCoil) (v : Pt),
      (s.translate v).weights = s.weights ∧ (s.translate v).npts = s.npts) ∧
    (∀ (s : RectangularCoil) (a c sn : ℚ) (p : Pt),
      (s.rotate a c sn p).weights = s.weights ∧ (s.rotate a c sn p).npts = s.npts) ∧
    (∀ (s : MagnetRing) (v : Pt),
      (s.translate v).weights = s.weights ∧ (s.translate v).npts = s.npts) ∧
    (∀ (s : MagnetRing) (a c sn : ℚ) (p : Pt),
      (s.rotate a c sn p).weights = s.weights ∧ (s.rotate a c sn p).npts = s.npts) ∧
    (∀ (s : ArbitraryPoints) (i : ℚ),
      (s.set_current i).weights = s.weights ∧ (s.set_current i).npts = s.npts) ∧
    (∀ (s : RectangularCoil) (i : ℚ),
      (s.set_current i).weights = s.weights ∧ (s.set_current i).npts = s.npts) ∧
    (∀ (s : MagnetRing) (i : ℚ),
      (s.set_current i).weights = s.weights ∧ (s.set_current i).npts = s.npts) ∧
    (∀ (s : ArbitraryPoints) (tc : ℚ),
      (s.set_total_current tc).weights = s.weights ∧
        (s.set_total_current tc).npts = s.npts) ∧
    (∀ (s : RectangularCoil) (tc : ℚ),
      (s.set_total_current tc).weights = s.weights ∧
        (s.set_total_current tc).npts = s.npts) ∧
    (∀ (s : MagnetRing) (tc : ℚ),
      (s.set_total_current tc).weights = s.weights ∧
        (s.set_total_current tc).npts = s.npts) := by
  refine ⟨?_, ?_, ?_, ?_, ?_, ?_, ?_, ?_, ?_, ?_, ?_, ?_, ?_, ?_, ?_⟩ <;>
    intros <;>
    simp [ArbitraryPoints.init, RectangularCoil.init, ArbitraryPoints.npts,
      RectangularCoil.npts, MagnetRing.npts, ArbitraryPoints.translate,
      ArbitraryPoints.rotate, RectangularCoil.translate, RectangularCoil.rotate,
      MagnetRing.translate, MagnetRing.rotate, RectangularCoil.set_centroid,
      RectangularCoil.set_angle, MagnetRing.set_centroid, MagnetRing.set_mu_hat,
      ArbitraryPoints.set_current, RectangularCoil.set_current,
      MagnetRing.set_current, ArbitraryPoints.set_total_current,
      RectangularCoil.set_total_current, MagnetRing.set_total_current,
      Pleiades.rotate]

/-- C7 counterexample: for a default `MagnetRing` (weights summing to 0),
assigning `total_current := 5` does not make `total_current` read back as 5
(the exact-arithmetic embedding reads back 0; the floating-point code reads
back `nan` after the unguarded division by zero). -/
theorem claim_C7_counterexample :
    ((MagnetRing.init 1 0 (1/100) (1/100) 0 1 none none true).set_total_current 5).total_current
      ≠ 5 := by
  have hs : (List.replicate 8 (-1 : ℚ) ++ List.replicate 8 1).sum = 0 := by
    simp [List.sum_replicate]
  show ((5 : ℚ) / (List.replicate 8 (-1 : ℚ) ++ List.replicate 8 1).sum) *
      (List.replicate 8 (-1 : ℚ) ++ List.replicate 8 1).sum ≠ (5 : ℚ)
  rw [hs]
  norm_num

/-- C7 (amended): `total_current` equals `current * sum(weights)` for every
filament set; assigning `T` to `total_current` re-derives `current` as
`T / sum(weights)` while leaving `weights` unchanged, and `total_current`
subsequently reads back as `T` provided `sum(weights) ≠ 0`. -/
theorem claim_C7_total_current :
    (∀ (s : ArbitraryPoints), s.total_current = s.current * s.weights.sum) ∧
    (∀ (s : RectangularCoil), s.total_current = s.current * s.weights.sum) ∧
    (∀ (s : MagnetRing), s.total_current = s.current * s.weights.sum) ∧
    (∀ (s : ArbitraryPoints) (tc : ℚ),
      (s.set_total_current tc).current = tc / s.weights.sum ∧
        (s.set_total_current tc).weights = s.weights) ∧
    (∀ (s : RectangularCoil) (tc : ℚ),
      (s.set_total_current tc).current = tc / s.weights.sum ∧
        (s.set_total_current tc).weights = s.weights) ∧
    (∀ (s : MagnetRing) (tc : ℚ),
      (s.set_total_current tc).current = tc / s.weights.sum ∧
        (s.set_total_current tc).weights = s.weights) ∧
    (∀ (s : ArbitraryPoints) (tc : ℚ), s.weights.sum ≠ 0 →
      (s.set_total_current tc).total_current = tc) ∧
    (∀ (s : RectangularCoil) (tc : ℚ), s.weights.sum ≠ 0 →
      (s.set_total_current tc).total_current = tc) ∧
    (∀ (s : MagnetRing) (tc : ℚ), s.weights.sum ≠ 0 →
      (s.set_total_current tc).total_current = tc) := by
  refine ⟨fun s => rfl, fun s => rfl, fun s => rfl,
    fun s tc => ⟨rfl, rfl⟩, fun s tc => ⟨rfl, rfl⟩, fun s tc => ⟨rfl, rfl⟩,
    ?_, ?_, ?_⟩ <;>
  · intro s tc h
    show tc / s.weights.sum * s.weights.sum = tc
    exact div_mul_cancel₀ tc h

/-- C7 witness: a concrete filament set with `sum(weights) = 1 ≠ 0` reads
back an assigned total current of 7. -/
theorem claim_C7_total_current_witness :
    (ArbitraryPoints.init [(1, 2)] 1 none none true).weights.sum ≠ 0 ∧
    ((ArbitraryPoints.init [(1, 2)] 1 none none true).set_total_current 7).total_current = 7 :=
  have h : (ArbitraryPoints.init [(1, 2)] 1 none none true).weights.sum ≠ 0 := by
    show (List.replicate 1 (1 : ℚ)).sum ≠ 0
    norm_num
  ⟨h, claim_C7_total_current.2.2.2.2.2.2.1 (ArbitraryPoints.init [(1, 2)] 1 none none true) 7 h⟩

/-- C8: `simplify()` and `clone()` unconditionally fail with
`NotImplementedError` for every filament-set state; being pure functions into
`Except`, they return no value and leave every state unchanged. -/
theorem claim_C8_unimplemented :
    (∀ (pts : List Pt) (tc : ℚ),
      simplify pts tc = Except.error PyError.notImplementedError) ∧
    (∀ (s : ArbitraryPoints), clone s = Except.error PyError.notImplementedError) ∧
    (∀ (s : RectangularCoil), clone s = Except.error PyError.notImplementedError) ∧
    (∀ (s : MagnetRing), clone s = Except.error PyError.notImplementedError) :=
  ⟨fun _ _ => rfl, fun _ => rfl, fun _ => rfl, fun _ => rfl⟩

/-- `linspace` sampling with constant spacing: when the endpoint is
`a + d*(n-1)`, the `i`-th sample is `a + i*d`. -/
theorem linspace_arith (a d : ℚ) (n : ℕ) :
    linspace a (a + d * ((n : ℚ) - 1)) n =
      (List.range n).map (fun i : ℕ => a + (i : ℚ) * d) := by
  match n with
  | 0 => simp [linspace]
  | 1 =>
    rw [linspace, if_pos rfl]
    rw [show List.range 1 = [0] from rfl]
    simp
  | n + 2 =>
    rw [linspace, if_neg (by omega)]
    apply List.map_congr_left
    intro i _
    have hne : ((n : ℚ) + 1) ≠ 0 := by positivity
    have hcast : (((n + 2 - 1 : ℕ)) : ℚ) = (n : ℚ) + 1 := by push_cast; ring
    rw [hcast]
    push_cast
    field_simp
    ring

/-- `RectangularCoil.rz_pts` refines the spec's description: the
linspace-generated, Z-fastest Cartesian product equals `rectGridSpec`,
rotated about the centroid when `angle` is not `np.isclose` to 0. -/
theorem RectangularCoil.rz_pts_eq_spec (s : RectangularCoil) (c sn : ℚ) :
    s.rz_pts c sn =
      if npIsClose s.angle 0 then rectGridSpec s.r0 s.z0 s.nr s.nz s.dr s.dz
      else Pleiades.rotate (rectGridSpec s.r0 s.z0 s.nr s.nz s.dr s.dz) c sn
        (s.r0, s.z0) := by
  have hr : s.r0 + s.dr * ((s.nr : ℚ) - 1) / 2 =
      (s.r0 - s.dr * ((s.nr : ℚ) - 1) / 2) + s.dr * ((s.nr : ℚ) - 1) := by ring
  have hz : s.z0 + s.dz * ((s.nz : ℚ) - 1) / 2 =
      (s.z0 - s.dz * ((s.nz : ℚ) - 1) / 2) + s.dz * ((s.nz : ℚ) - 1) := by ring
  have hpts :
      (linspace (s.r0 - s.dr * ((s.nr : ℚ) - 1) / 2)
          (s.r0 + s.dr * ((s.nr : ℚ) - 1) / 2) s.nr).flatMap
        (fun ri =>
          (linspace (s.z0 - s.dz * ((s.nz : ℚ) - 1) / 2)
              (s.z0 + s.dz * ((s.nz : ℚ) - 1) / 2) s.nz).map
            (fun zi => (ri, zi))) =
      rectGridSpec s.r0 s.z0 s.nr s.nz s.dr s.dz := by
    rw [hr, hz, linspace_arith, linspace_arith, rectGridSpec, List.flatMap_map]
    simp only [List.map_map]
    rfl
  simp only [RectangularCoil.rz_pts]
  rw [hpts]

/-- C2: for every `RectangularCoil`, `rz_pts` is the `nr*nz`
Cartesian-product grid of `nr` evenly spaced R-values spanning
`[r0 - dr*(nr-1)/2, r0 + dr*(nr-1)/2]` and `nz` evenly spaced Z-values
spanning the analogous range, enumerated R-major with Z fastest-varying,
rotated about the centroid by `angle` when `angle` is not approximately 0;
in particular for `nr=2, nz=2, dr=0.1, dz=0.1, r0=1.0, z0=0.0, angle=0`,
`rz_pts` equals `[(0.95,-0.05), (0.95,0.05), (1.05,-0.05), (1.05,0.05)]` in
that order. -/
theorem claim_C2_rect_rz_pts :
    (∀ (s : RectangularCoil) (c sn : ℚ),
      s.rz_pts c sn =
        if npIsClose s.angle 0 then rectGridSpec s.r0 s.z0 s.nr s.nz s.dr s.dz
        else Pleiades.rotate (rectGridSpec s.r0 s.z0 s.nr s.nz s.dr s.dz) c sn
          (s.r0, s.z0)) ∧
    (RectangularCoil.init 1 0 2 2 (1/10) (1/10) 0 1 none none true).rz_pts 1 0 =
      [(19/20, -(1/20)), (19/20, 1/20), (21/20, -(1/20)), (21/20, 1/20)] := by
  refine ⟨RectangularCoil.rz_pts_eq_spec, ?_⟩
  have hclose : npIsClose 0 0 = true := by norm_num [npIsClose]
  norm_num [RectangularCoil.rz_pts, RectangularCoil.init, linspace, hclose,
    List.range_succ]

/-- Rotating by the pair `(c, s)` and then by `(c, -s)` about the same pivot
is the identity when `(c, s)` is a cosine/sine pair (`(c, -s)` is the pair of
the negated angle, cosine being even and sine odd). -/
theorem rotatePt_inv (p : Pt) (c s : ℚ) (pivot : Pt) (h : c ^ 2 + s ^ 2 = 1) :
    rotatePt (rotatePt p c s pivot) c (-s) pivot = p := by
  have h1 : (rotatePt (rotatePt p c s pivot) c (-s) pivot).1 = p.1 := by
    simp only [rotatePt]
    linear_combination (p.1 - pivot.1) * h
  have h2 : (rotatePt (rotatePt p c s pivot) c (-s) pivot).2 = p.2 := by
    simp only [rotatePt]
    linear_combination (p.2 - pivot.2) * h
  exact Prod.ext h1 h2

/-- List version of `rotatePt_inv` for the transform utility. -/
theorem rotate_rotate_inv (pts : List Pt) (c s : ℚ) (pivot : Pt)
    (h : c ^ 2 + s ^ 2 = 1) :
    Pleiades.rotate (Pleiades.rotate pts c s pivot) c (-s) pivot = pts := by
  unfold Pleiades.rotate
  rw [List.map_map]
  have hid : ((fun p => rotatePt p c (-s) pivot) ∘ fun p => rotatePt p c s pivot)
      = id := by
    funext p
    exact rotatePt_inv p c s pivot h
  rw [hid, List.map_id]

/-- `RectangularCoil.rz_pts` only reads the geometric parameters. -/
theorem rect_rz_pts_congr {s t : RectangularCoil} (c sn : ℚ)
    (h0 : s.r0 = t.r0) (h1 : s.z0 = t.z0) (h2 : s.nr = t.nr) (h3 : s.nz = t.nz)
    (h4 : s.dr = t.dr) (h5 : s.dz = t.dz) (h6 : s.angle = t.angle) :
    s.rz_pts c sn = t.rz_pts c sn := by
  unfold RectangularCoil.rz_pts
  rw [h0, h1, h2, h3, h4, h5, h6]

/-- `MagnetRing.rz_pts` only reads the geometric parameters and `npts`. -/
theorem magnet_rz_pts_congr {s t : MagnetRing} (c sn : ℚ)
    (h0 : s.r0 = t.r0) (h1 : s.z0 = t.z0) (h2 : s.width = t.width)
    (h3 : s.height = t.height) (h4 : s.mu_hat = t.mu_hat)
    (h5 : s.npts = t.npts) :
    s.rz_pts c sn = t.rz_pts c sn := by
  unfold MagnetRing.rz_pts
  rw [h0, h1, h2, h3, h4, h5]

/-- C5: for every concrete filament set, `translate(v)` then
`translate(-v)` restores `rz_pts` exactly (hence within any floating-point
tolerance), and `rotate(a, pivot=p)` then `rotate(-a, pivot=p)` restores
`rz_pts` exactly, for any pivot and any angle.  `(c, sn)` is the cosine/sine
pair of `a`, so the inverse call's pair is `(c, -sn)`; `(c2, sn2)` is the
pair used to evaluate `rz_pts` afterwards. -/
theorem claim_C5_roundtrips :
    (∀ (s : ArbitraryPoints) (v : Pt),
      ((s.translate v).translate (-v.1, -v.2)).rz_pts = s.rz_pts) ∧
    (∀ (s : ArbitraryPoints) (a c sn : ℚ) (p : Pt), c ^ 2 + sn ^ 2 = 1 →
      ((s.rotate a c sn p).rotate (-a) c (-sn) p).rz_pts = s.rz_pts) ∧
    (∀ (s : RectangularCoil) (v : Pt) (c2 sn2 : ℚ),
      ((s.translate v).translate (-v.1, -v.2)).rz_pts c2 sn2 = s.rz_pts c2 sn2) ∧
    (∀ (s : RectangularCoil) (a c sn c2 sn2 : ℚ) (p : Pt), c ^ 2 + sn ^ 2 = 1 →
      ((s.rotate a c sn p).rotate (-a) c (-sn) p).rz_pts c2 sn2 =
        s.rz_pts c2 sn2) ∧
    (∀ (s : MagnetRing) (v : Pt) (c2 sn2 : ℚ),
      ((s.translate v).translate (-v.1, -v.2)).rz_pts c2 sn2 = s.rz_pts c2 sn2) ∧
    (∀ (s : MagnetRing) (a c sn c2 sn2 : ℚ) (p : Pt), c ^ 2 + sn ^ 2 = 1 →
      ((s.rotate a c sn p).rotate (-a) c (-sn) p).rz_pts c2 sn2 =
        s.rz_pts c2 sn2) := by
  refine ⟨?_, ?_, ?_, ?_, ?_, ?_⟩
  · intro s v
    show (s.rz_pts.map fun p : Pt => (p.1 + v.1, p.2 + v.2)).map
        (fun p : Pt => (p.1 + -v.1, p.2 + -v.2)) = s.rz_pts
    rw [List.map_map]
    have hid : ((fun p : Pt => (p.1 + -v.1, p.2 + -v.2)) ∘
        fun p : Pt => (p.1 + v.1, p.2 + v.2)) = id := by
      funext p
      exact Prod.ext (by show p.1 + v.1 + -v.1 = p.1; ring)
        (by show p.2 + v.2 + -v.2 = p.2; ring)
    rw [hid, List.map_id]
  · intro s a c sn p h
    show Pleiades.rotate (Pleiades.rotate s.rz_pts c sn p) c (-sn) p = s.rz_pts
    exact rotate_rotate_inv s.rz_pts c sn p h
  · intro s v c2 sn2
    exact rect_rz_pts_congr c2 sn2
      (by show s.r0 + v.1 + -v.1 = s.r0; ring)
      (by show s.z0 + v.2 + -v.2 = s.z0; ring) rfl rfl rfl rfl rfl
  · intro s a c sn c2 sn2 p h
    have hinv := rotatePt_inv ((s.r0, s.z0) : Pt) c sn p h
    exact rect_rz_pts_congr c2 sn2 (congrArg Prod.fst hinv)
      (congrArg Prod.snd hinv) rfl rfl rfl rfl
      (by show s.angle + a + -a = s.angle; ring)
  · intro s v c2 sn2
    exact magnet_rz_pts_congr c2 sn2
      (by show s.r0 + v.1 + -v.1 = s.r0; ring)
      (by show s.z0 + v.2 + -v.2 = s.z0; ring) rfl rfl rfl rfl
  · intro s a c sn c2 sn2 p h
    have hinv := rotatePt_inv ((s.r0, s.z0) : Pt) c sn p h
    exact magnet_rz_pts_congr c2 sn2 (congrArg Prod.fst hinv)
      (congrArg Prod.snd hinv) rfl rfl
      (by show s.mu_hat + a + -a = s.mu_hat; ring) rfl

/-- C5 witness: the round trips instantiated with the cosine/sine pair
`(3/5, 4/5)` on concrete filament sets. -/
theorem claim_C5_roundtrips_witness :
    ((3/5 : ℚ) ^ 2 + (4/5 : ℚ) ^ 2 = 1) ∧
    (((ArbitraryPoints.init [(0, 0), (1, 1)] 1 none none true).rotate 30 (3/5) (4/5)
        (1, 2)).rotate (-30) (3/5) (-(4/5)) (1, 2)).rz_pts =
      (ArbitraryPoints.init [(0, 0), (1, 1)] 1 none none true).rz_pts ∧
    (((RectangularCoil.init 1 0 2 3 (1/10) (1/5) 45 1 none none true).rotate 30 (3/5)
        (4/5) (1, 2)).rotate (-30) (3/5) (-(4/5)) (1, 2)).rz_pts (12/13) (5/13) =
      (RectangularCoil.init 1 0 2 3 (1/10) (1/5) 45 1 none none true).rz_pts
        (12/13) (5/13) ∧
    (((MagnetRing.init 1 0 (1/50) (2/25) 10 1 none none true).rotate 30 (3/5) (4/5)
        (1, 2)).rotate (-30) (3/5) (-(4/5)) (1, 2)).rz_pts (12/13) (5/13) =
      (MagnetRing.init 1 0 (1/50) (2/25) 10 1 none none true).rz_pts (12/13) (5/13) :=
  have h : (3/5 : ℚ) ^ 2 + (4/5 : ℚ) ^ 2 = 1 := by norm_num
  ⟨h,
   claim_C5_roundtrips.2.1 (ArbitraryPoints.init [(0, 0), (1, 1)] 1 none none true)
     30 (3/5) (4/5) (1, 2) h,
   claim_C5_roundtrips.2.2.2.1 (RectangularCoil.init 1 0 2 3 (1/10) (1/5) 45 1 none none true)
     30 (3/5) (4/5) (12/13) (5/13) (1, 2) h,
   claim_C5_roundtrips.2.2.2.2.2 (MagnetRing.init 1 0 (1/50) (2/25) 10 1 none none true)
     30 (3/5) (4/5) (12/13) (5/13) (1, 2) h⟩

/-- Translation preserves squared distances. -/
theorem sqDist_translate (p q v : Pt) :
    sqDist (p.1 + v.1, p.2 + v.2) (q.1 + v.1, q.2 + v.2) = sqDist p q := by
  simp only [sqDist]
  ring

/-- Rotation by a cosine/sine pair preserves squared distances. -/
theorem sqDist_rotatePt (p q : Pt) (c s : ℚ) (pivot : Pt)
    (h : c ^ 2 + s ^ 2 = 1) :
    sqDist (rotatePt p c s pivot) (rotatePt q c s pivot) = sqDist p q := by
  simp only [sqDist, rotatePt]
  linear_combination ((p.1 - q.1) ^ 2 + (p.2 - q.2) ^ 2) * h

/-- Mapping a squared-distance-preserving function over a point list leaves
the pairwise squared-distance matrix unchanged. -/
theorem pairwiseSq_map_of_isometry (f : Pt → Pt) (pts : List Pt)
    (h : ∀ p q, sqDist (f p) (f q) = sqDist p q) :
    pairwiseSq (pts.map f) = pairwiseSq pts := by
  unfold pairwiseSq
  rw [List.map_map]
  apply List.map_congr_left
  intro p _
  show (pts.map f).map (fun q => sqDist (f p) q) = pts.map (fun q => sqDist p q)
  rw [List.map_map]
  apply List.map_congr_left
  intro q _
  exact h p q

/-- The transform utility leaves pairwise squared distances unchanged. -/
theorem pairwiseSq_rotate (pts : List Pt) (c s : ℚ) (pivot : Pt)
    (h : c ^ 2 + s ^ 2 = 1) :
    pairwiseSq (Pleiades.rotate pts c s pivot) = pairwiseSq pts :=
  pairwiseSq_map_of_isometry _ _ (fun p q => sqDist_rotatePt p q c s pivot h)

/-- Translating every point leaves pairwise squared distances unchanged. -/
theorem pairwiseSq_translate_map (pts : List Pt) (a b : ℚ) :
    pairwiseSq (pts.map (fun p : Pt => (p.1 + a, p.2 + b))) = pairwiseSq pts :=
  pairwiseSq_map_of_isometry _ _ (fun p q => sqDist_translate p q (a, b))

/-- The spec grid at centroid `(r0, z0)` is the centred grid translated. -/
theorem rectGridSpec_shift (r0 z0 : ℚ) (nr nz : ℕ) (dr dz : ℚ) :
    rectGridSpec r0 z0 nr nz dr dz =
      (rectGridSpec 0 0 nr nz dr dz).map (fun p : Pt => (p.1 + r0, p.2 + z0)) := by
  unfold rectGridSpec
  rw [List.map_flatMap]
  apply congrArg
  funext i
  rw [List.map_map]
  apply List.map_congr_left
  intro j _
  simp only [Function.comp, Prod.mk.injEq]
  constructor <;> ring

/-- The squared-distance matrix of a `RectangularCoil`'s filaments depends
only on the grid parameters `(nr, nz, dr, dz)`, not on centroid or angle. -/
theorem rect_pairwiseSq_rz_pts (s : RectangularCoil) (c sn : ℚ)
    (h : c ^ 2 + sn ^ 2 = 1) :
    pairwiseSq (s.rz_pts c sn) =
      pairwiseSq (rectGridSpec 0 0 s.nr s.nz s.dr s.dz) := by
  rw [RectangularCoil.rz_pts_eq_spec]
  by_cases hb : npIsClose s.angle 0 = true
  · rw [if_pos hb, rectGridSpec_shift s.r0 s.z0, pairwiseSq_translate_map]
  · rw [if_neg hb, pairwiseSq_rotate _ _ _ _ h, rectGridSpec_shift s.r0 s.z0,
      pairwiseSq_translate_map]

/-- The unrotated `MagnetRing` point list is the centred configuration
translated by the centroid. -/
theorem MagnetRing.rz_pts_unrotated (s : MagnetRing) :
    ((linspace (-(s.height / 2)) (s.height / 2) (s.npts / 2)).map
        (fun z => (s.r0 - s.width / 2, s.z0 + z)) ++
      (linspace (-(s.height / 2)) (s.height / 2) (s.npts / 2)).map
        (fun z => (s.r0 + s.width / 2, s.z0 + z))) =
      (magnetGrid0 s.width s.height (s.npts / 2)).map
        (fun p : Pt => (p.1 + s.r0, p.2 + s.z0)) := by
  unfold magnetGrid0
  rw [List.map_append, List.map_map, List.map_map]
  congr 1 <;>
  · apply List.map_congr_left
    intro z _
    simp only [Function.comp, Prod.mk.injEq]
    constructor <;> ring

/-- The squared-distance matrix of a `MagnetRing`'s filaments depends only
on `(width, height, npts)`, not on centroid or `mu_hat`. -/
theorem magnet_pairwiseSq_rz_pts (s : MagnetRing) (c sn : ℚ)
    (h : c ^ 2 + sn ^ 2 = 1) :
    pairwiseSq (s.rz_pts c sn) =
      pairwiseSq (magnetGrid0 s.width s.height (s.npts / 2)) := by
  simp only [MagnetRing.rz_pts]
  rw [MagnetRing.rz_pts_unrotated]
  by_cases hb : npIsCloseAtol s.mu_hat 0 = true
  · rw [if_pos hb, pairwiseSq_translate_map]
  · rw [if_neg hb, pairwiseSq_rotate _ _ _ _ h, pairwiseSq_translate_map]

/-- `translate`/`rotate` sequences do not change a `RectangularCoil`'s grid
parameters. -/
theorem rect_applyOps_params (s : RectangularCoil) (ops : List MotionOp) :
    (s.applyOps ops).nr = s.nr ∧ (s.applyOps ops).nz = s.nz ∧
      (s.applyOps ops).dr = s.dr ∧ (s.applyOps ops).dz = s.dz := by
  induction ops generalizing s with
  | nil => exact ⟨rfl, rfl, rfl, rfl⟩
  | cons op ops ih =>
    have h := ih (s.applyOp op)
    have hop : (s.applyOp op).nr = s.nr ∧ (s.applyOp op).nz = s.nz ∧
        (s.applyOp op).dr = s.dr ∧ (s.applyOp op).dz = s.dz := by
      cases op <;> exact ⟨rfl, rfl, rfl, rfl⟩
    exact ⟨h.1.trans hop.1, h.2.1.trans hop.2.1, h.2.2.1.trans hop.2.2.1,
      h.2.2.2.trans hop.2.2.2⟩

/-- `translate`/`rotate` sequences do not change a `MagnetRing`'s shape
parameters or weights. -/
theorem magnet_applyOps_params (s : MagnetRing) (ops : List MotionOp) :
    (s.applyOps ops).width = s.width ∧ (s.applyOps ops).height = s.height ∧
      (s.applyOps ops).weights = s.weights := by
  induction ops generalizing s with
  | nil => exact ⟨rfl, rfl, rfl⟩
  | cons op ops ih =>
    have h := ih (s.applyOp op)
    have hop : (s.applyOp op).width = s.width ∧ (s.applyOp op).height = s.height ∧
        (s.applyOp op).weights = s.weights := by
      cases op <;> exact ⟨rfl, rfl, rfl⟩
    exact ⟨h.1.trans hop.1, h.2.1.trans hop.2.1, h.2.2.trans hop.2.2⟩

/-- C6: for every concrete filament set and every finite sequence of
`translate`/`rotate` calls (with valid cosine/sine pairs), `npts` is
unchanged and the matrix of pairwise squared Euclidean distances between the
filaments of `rz_pts` is unchanged exactly (hence all pairwise Euclidean
distances are unchanged within any tolerance).  For the parametric shapes,
`(c0, sn0)` and `(c1, sn1)` are the cosine/sine pairs of the stored
orientation before and after the sequence. -/
theorem claim_C6_rigidity :
    (∀ (s : ArbitraryPoints) (ops : List MotionOp), (∀ o ∈ ops, o.valid) →
      (s.applyOps ops).npts = s.npts ∧
        pairwiseSq (s.applyOps ops).rz_pts = pairwiseSq s.rz_pts) ∧
    (∀ (s : RectangularCoil) (ops : List MotionOp), (∀ o ∈ ops, o.valid) →
      ∀ (c0 sn0 c1 sn1 : ℚ), c0 ^ 2 + sn0 ^ 2 = 1 → c1 ^ 2 + sn1 ^ 2 = 1 →
      (s.applyOps ops).npts = s.npts ∧
        pairwiseSq ((s.applyOps ops).rz_pts c1 sn1) =
          pairwiseSq (s.rz_pts c0 sn0)) ∧
    (∀ (s : MagnetRing) (ops : List MotionOp), (∀ o ∈ ops, o.valid) →
      ∀ (c0 sn0 c1 sn1 : ℚ), c0 ^ 2 + sn0 ^ 2 = 1 → c1 ^ 2 + sn1 ^ 2 = 1 →
      (s.applyOps ops).npts = s.npts ∧
        pairwiseSq ((s.applyOps ops).rz_pts c1 sn1) =
          pairwiseSq (s.rz_pts c0 sn0)) := by
  refine ⟨?_, ?_, ?_⟩
  · intro s ops
    induction ops generalizing s with
    | nil => exact fun _ => ⟨rfl, rfl⟩
    | cons op ops ih =>
      intro hval
      have hop : (s.applyOp op).npts = s.npts ∧
          pairwiseSq (s.applyOp op).rz_pts = pairwiseSq s.rz_pts := by
        cases op with
        | translate v =>
          constructor
          · show (s.rz_pts.map _).length = s.rz_pts.length
            rw [List.length_map]
          · exact pairwiseSq_translate_map s.rz_pts v.1 v.2
        | rotate a c sn p =>
          have hv : (MotionOp.rotate a c sn p).valid :=
            hval _ (List.mem_cons_self _ _)
          constructor
          · show (List.map _ _).length = s.rz_pts.length
            rw [List.length_map]
          · exact pairwiseSq_rotate s.rz_pts c sn p hv
      have hrest := ih (s.applyOp op) (fun o ho => hval o (List.mem_cons_of_mem _ ho))
      exact ⟨hrest.1.trans hop.1, hrest.2.trans hop.2⟩
  · intro s ops hval c0 sn0 c1 sn1 h0 h1
    obtain ⟨hnr, hnz, hdr, hdz⟩ := rect_applyOps_params s ops
    constructor
    · show (s.applyOps ops).nr * (s.applyOps ops).nz = s.nr * s.nz
      rw [hnr, hnz]
    · rw [rect_pairwiseSq_rz_pts _ _ _ h1,
        rect_pairwiseSq_rz_pts _ _ _ h0, hnr, hnz, hdr, hdz]
  · intro s ops hval c0 sn0 c1 sn1 h0 h1
    obtain ⟨hw, hh, hwt⟩ := magnet_applyOps_params s ops
    have hn : (s.applyOps ops).npts = s.npts := by
      show (s.applyOps ops).weights.length = s.weights.length
      rw [hwt]
    refine ⟨hn, ?_⟩
    rw [magnet_pairwiseSq_rz_pts _ _ _ h1,
      magnet_pairwiseSq_rz_pts _ _ _ h0, hw, hh, hn]

/-- C6 witness: a concrete translate-then-rotate sequence on concrete
filament sets, with valid cosine/sine pairs, instantiating all three parts
of the rigidity theorem. -/
theorem claim_C6_rigidity_witness :
    (∀ o ∈ [MotionOp.translate (2, 3), MotionOp.rotate 90 (3/5) (4/5) (0, 0)],
      o.valid) ∧
    ((1 : ℚ) ^ 2 + (0 : ℚ) ^ 2 = 1) ∧ ((3/5 : ℚ) ^ 2 + (4/5 : ℚ) ^ 2 = 1) ∧
    (((ArbitraryPoints.init [(0, 0), (1, 1)] 1 none none true).applyOps
        [MotionOp.translate (2, 3), MotionOp.rotate 90 (3/5) (4/5) (0, 0)]).npts =
      (ArbitraryPoints.init [(0, 0), (1, 1)] 1 none none true).npts ∧
      pairwiseSq ((ArbitraryPoints.init [(0, 0), (1, 1)] 1 none none true).applyOps
          [MotionOp.translate (2, 3), MotionOp.rotate 90 (3/5) (4/5) (0, 0)]).rz_pts =
        pairwiseSq (ArbitraryPoints.init [(0, 0), (1, 1)] 1 none none true).rz_pts) ∧
    (((RectangularCoil.init 1 0 2 3 (1/10) (1/5) 0 1 none none true).applyOps
        [MotionOp.translate (2, 3), MotionOp.rotate 90 (3/5) (4/5) (0, 0)]).npts =
      (RectangularCoil.init 1 0 2 3 (1/10) (1/5) 0 1 none none true).npts ∧
      pairwiseSq (((RectangularCoil.init 1 0 2 3 (1/10) (1/5) 0 1 none none true).applyOps
          [MotionOp.translate (2, 3), MotionOp.rotate 90 (3/5) (4/5) (0, 0)]).rz_pts
          (3/5) (4/5)) =
        pairwiseSq ((RectangularCoil.init 1 0 2 3 (1/10) (1/5) 0 1 none none true).rz_pts
          1 0)) ∧
    (((MagnetRing.init 1 0 (1/50) (2/25) 0 1 none none true).applyOps
        [MotionOp.translate (2, 3), MotionOp.rotate 90 (3/5) (4/5) (0, 0)]).npts =
      (MagnetRing.init 1 0 (1/50) (2/25) 0 1 none none true).npts ∧
      pairwiseSq (((MagnetRing.init 1 0 (1/50) (2/25) 0 1 none none true).applyOps
          [MotionOp.translate (2, 3), MotionOp.rotate 90 (3/5) (4/5) (0, 0)]).rz_pts
          (3/5) (4/5)) =
        pairwiseSq ((MagnetRing.init 1 0 (1/50) (2/25) 0 1 none none true).rz_pts 1 0)) := by
  have hval : ∀ o ∈ [MotionOp.translate (2, 3), MotionOp.rotate 90 (3/5) (4/5) (0, 0)],
      o.valid := by
    intro o ho
    rcases List.mem_cons.mp ho with h | h
    · subst h; trivial
    · rcases List.mem_cons.mp h with h2 | h2
      · subst h2
        show (3/5 : ℚ) ^ 2 + (4/5 : ℚ) ^ 2 = 1
        norm_num
      · exact absurd h2 (List.not_mem_nil _)
  have h0 : (1 : ℚ) ^ 2 + (0 : ℚ) ^ 2 = 1 := by norm_num
  have h1 : (3/5 : ℚ) ^ 2 + (4/5 : ℚ) ^ 2 = 1 := by norm_num
  exact ⟨hval, h0, h1,
    claim_C6_rigidity.1 (ArbitraryPoints.init [(0, 0), (1, 1)] 1 none none true) _ hval,
    claim_C6_rigidity.2.1 (RectangularCoil.init 1 0 2 3 (1/10) (1/5) 0 1 none none true)
      _ hval 1 0 (3/5) (4/5) h0 h1,
    claim_C6_rigidity.2.2 (MagnetRing.init 1 0 (1/50) (2/25) 0 1 none none true)
      _ hval 1 0 (3/5) (4/5) h0 h1⟩

/-- C9: a `MagnetRing` constructed without a `patch_kw` argument (so
`patch_kw` keeps its default `None`) raises `TypeError` on every `patch`
access, because the `None` styling dictionary is unpacked as keyword
arguments (`**self.patch_kw`) into the patch constructor;
`RectangularCoil.patch` never applies `patch_kw` at all: it is independent
of `patch_kw` and always succeeds. -/
theorem claim_C9_patch :
    (∀ (r0 z0 width height mu_hat current : ℚ) (w : Option (List ℚ))
      (u0 : Bool) (c sn : ℚ),
      (MagnetRing.init r0 z0 width height mu_hat current w none u0).patch c sn =
        Except.error PyError.typeError) ∧
    (∀ (s : RectangularCoil) (c sn : ℚ) (kw : Option (List (String × String))),
      RectangularCoil.patch { s with patch_kw := kw } c sn = s.patch c sn ∧
        (s.patch c sn).isOk = true) :=
  ⟨fun _ _ _ _ _ _ _ _ _ _ => rfl, fun _ _ _ _ => ⟨rfl, rfl⟩⟩

/-- C10: for every filament set whose weights sum to zero (for example a
`MagnetRing` with its default weights), assigning any value to
`total_current` performs an unguarded division by `sum(weights) = 0`: the
setter is a total state update that raises nothing and leaves `weights`
unchanged, and the value assigned to `current` is non-finite at the IEEE
level (`ieeeDiv` yields `none`, standing for `±inf`/`NaN`). -/
theorem claim_C10_zero_weight_sum :
    (∀ (s : ArbitraryPoints) (tc : ℚ), s.weights.sum = 0 →
      set_total_current_ieee s.weights tc = none ∧
        (s.set_total_current tc).weights = s.weights) ∧
    (∀ (s : RectangularCoil) (tc : ℚ), s.weights.sum = 0 →
      set_total_current_ieee s.weights tc = none ∧
        (s.set_total_current tc).weights = s.weights) ∧
    (∀ (s : MagnetRing) (tc : ℚ), s.weights.sum = 0 →
      set_total_current_ieee s.weights tc = none ∧
        (s.set_total_current tc).weights = s.weights) ∧
    (∀ (r0 z0 width height mu_hat current : ℚ)
      (pkw : Option (List (String × String))) (u0 : Bool),
      (MagnetRing.init r0 z0 width height mu_hat current none pkw u0).weights.sum
        = 0) := by
  refine ⟨?_, ?_, ?_, ?_⟩
  · intro s tc h
    exact ⟨by simp [set_total_current_ieee, ieeeDiv, h], rfl⟩
  · intro s tc h
    exact ⟨by simp [set_total_current_ieee, ieeeDiv, h], rfl⟩
  · intro s tc h
    exact ⟨by simp [set_total_current_ieee, ieeeDiv, h], rfl⟩
  · intro r0 z0 width height mu_hat current pkw u0
    show (List.replicate 8 (-1 : ℚ) ++ List.replicate 8 1).sum = (0 : ℚ)
    simp [List.sum_replicate]

/-- C10 witness: a default `MagnetRing` has zero weight sum, and assigning
`total_current := 5` produces a non-finite `current` at the IEEE level while
leaving `weights` unchanged. -/
theorem claim_C10_zero_weight_sum_witness :
    (MagnetRing.init 1 0 (1/100) (1/100) 0 1 none none true).weights.sum = 0 ∧
    set_total_current_ieee
      (MagnetRing.init 1 0 (1/100) (1/100) 0 1 none none true).weights 5 = none ∧
    ((MagnetRing.init 1 0 (1/100) (1/100) 0 1 none none true).set_total_current 5).weights
      = (MagnetRing.init 1 0 (1/100) (1/100) 0 1 none none true).weights := by
  have h : (MagnetRing.init 1 0 (1/100) (1/100) 0 1 none none true).weights.sum = 0 := by
    show (List.replicate 8 (-1 : ℚ) ++ List.replicate 8 1).sum = (0 : ℚ)
    simp [List.sum_replicate]
  have h2 := claim_C10_zero_weight_sum.2.2.1
    (MagnetRing.init 1 0 (1/100) (1/100) 0 1 none none true) 5 h
  exact ⟨h, h2.1, h2.2⟩

end Pleiades
